import Mathlib

/-!
Verification development for the Linux system monitoring tool (`main.c`).

The C program samples `/proc/stat`, `/proc/meminfo` and `statvfs` and derives
utilization percentages.  We give a shallow embedding of its sampling and
derivation engine:

* machine integers (`unsigned long long` / `unsigned long`, both 64-bit on the
  LP64 Linux targets this tool is built for) are modelled as `Nat` with
  arithmetic reduced modulo `2 ^ 64` exactly where C arithmetic wraps;
* `double` computations on percentages are modelled as exact rationals (`Rat`);
  every concrete value exercised below is exactly representable as a binary
  double (small integers and quotients by powers of two), so the rational
  model agrees with the IEEE evaluation on those values, and the final
  range-clamping facts are independent of rounding;
* fallible I/O (fopen/fgets/sscanf/statvfs) is modelled by `Option`-shaped
  inputs describing what the OS handed to the program.
-/

namespace SysMon

/-- Modulus of the 64-bit unsigned integer types (`unsigned long long`,
and `unsigned long` on LP64) used by the C code. -/
def W : Nat := 2 ^ 64

/-- Wrapping 64-bit unsigned subtraction: the value of the C expression
`a - b` at unsigned 64-bit type. -/
def wsub (a b : Nat) : Nat := (a % W + (W - b % W)) % W

/-- One aggregate CPU sample: the eight tick counters parsed from the first
line of `/proc/stat` (fields `user … steal` of `cpu_stats_t`). -/
structure CpuSample where
  user : Nat
  nice : Nat
  system : Nat
  idle : Nat
  iowait : Nat
  irq : Nat
  softirq : Nat
  steal : Nat
deriving DecidableEq, Repr

/-- The CPU sampler state kept by the program across ticks: the current
eight counters and the `prev_*` copies (`cpu_stats_t` without the derived
`usage_percent` output). -/
structure cpu_stats_t where
  curr : CpuSample
  prev : CpuSample
deriving DecidableEq, Repr

/-- Sum of the eight counters of a sample as computed by the C code in
unsigned 64-bit arithmetic (`prev_total` / `curr_total` in
`calculate_cpu_usage`). -/
def cpuTotal (s : CpuSample) : Nat :=
  (s.user + s.nice + s.system + s.idle + s.iowait + s.irq + s.softirq + s.steal) % W

/-- The combined idle figure `idle + iowait` of `calculate_cpu_usage`
(`prev_idle` / `curr_idle`), in unsigned 64-bit arithmetic. -/
def cpuIdle (s : CpuSample) : Nat := (s.idle + s.iowait) % W

/-- The local `total_diff = curr_total - prev_total` of
`calculate_cpu_usage` (wrapping subtraction). -/
def total_diff (prev curr : CpuSample) : Nat := wsub (cpuTotal curr) (cpuTotal prev)

/-- The local `idle_diff = curr_idle - prev_idle` of `calculate_cpu_usage`
(wrapping subtraction). -/
def idle_diff (prev curr : CpuSample) : Nat := wsub (cpuIdle curr) (cpuIdle prev)

/-- The first clamping statement `if (usage_percent < 0.0) usage_percent = 0.0;`
shared by all three samplers. -/
def clampLow (x : Rat) : Rat := if x < 0 then 0 else x

/-- The clamping tail shared verbatim by `calculate_cpu_usage`,
`read_memory_stats` and `read_disk_stats`:
`if (p < 0) p = 0; if (p > 100) p = 100;`. -/
def clamp01 (x : Rat) : Rat := if clampLow x > 100 then 100 else clampLow x

/-- The unclamped usage value of `calculate_cpu_usage`:
`total_diff == 0 ? 0.0 : (double)(total_diff - idle_diff) / total_diff * 100.0`.
The numerator `total_diff - idle_diff` is again a wrapping unsigned 64-bit
subtraction in C, hence `wsub`. -/
def rawUsage (prev curr : CpuSample) : Rat :=
  if total_diff prev curr = 0 then 0
  else ((wsub (total_diff prev curr) (idle_diff prev curr) : Nat) : Rat) /
    ((total_diff prev curr : Nat) : Rat) * 100

/-- The value stored into `stats->usage_percent` by `calculate_cpu_usage`
for previous sample `prev` and current sample `curr`.  The C function is
straight-line code, so it terminates on every input; this definition is its
total result. -/
def calculate_cpu_usage (prev curr : CpuSample) : Rat :=
  clamp01 (rawUsage prev curr)

lemma clampLow_nonneg (x : Rat) : 0 ≤ clampLow x := by
  unfold clampLow
  split <;> linarith

lemma clamp01_nonneg (x : Rat) : 0 ≤ clamp01 x := by
  unfold clamp01
  split
  · norm_num
  · exact clampLow_nonneg x

lemma clamp01_le_100 (x : Rat) : clamp01 x ≤ 100 := by
  unfold clamp01
  split <;> linarith

lemma cpuTotal_lt_W (s : CpuSample) : cpuTotal s < W := by
  unfold cpuTotal W
  exact Nat.mod_lt _ (by norm_num)

lemma wsub_self (a : Nat) : wsub a a = 0 := by
  unfold wsub
  have h : a % W < W := Nat.mod_lt _ (by unfold W; norm_num)
  have h2 : a % W + (W - a % W) = W := by omega
  rw [h2, Nat.mod_self]

/-- C1: for every pair of CPU samples — fields non-decreasing or not, with
64-bit unsigned wrap-around on subtraction — `calculate_cpu_usage` is a total
function and the stored `usage_percent` lies in `[0, 100]`. -/
theorem calculate_cpu_usage_in_range (prev curr : CpuSample) :
    0 ≤ calculate_cpu_usage prev curr ∧ calculate_cpu_usage prev curr ≤ 100 :=
  ⟨clamp01_nonneg _, clamp01_le_100 _⟩

/-- C8: whenever the eight-field totals of the two samples agree (so the
wrapped `total_diff` is zero, which covers `prev == curr` as well as
nonzero-but-equal totals), `calculate_cpu_usage` takes the guarded branch and
yields exactly `0`, with no division by zero. -/
theorem calculate_cpu_usage_zero_delta (prev curr : CpuSample)
    (h : cpuTotal curr = cpuTotal prev) : calculate_cpu_usage prev curr = 0 := by
  have ht : total_diff prev curr = 0 := by
    unfold total_diff
    rw [h, wsub_self]
  unfold calculate_cpu_usage rawUsage
  rw [ht]
  norm_num [clamp01, clampLow]

/-- Witness for C8 at a concrete nonzero sample equal to itself. -/
theorem calculate_cpu_usage_zero_delta_witness :
    cpuTotal ⟨5, 1, 2, 100, 3, 0, 0, 0⟩ = cpuTotal ⟨5, 1, 2, 100, 3, 0, 0, 0⟩ ∧
    calculate_cpu_usage ⟨5, 1, 2, 100, 3, 0, 0, 0⟩ ⟨5, 1, 2, 100, 3, 0, 0, 0⟩ = 0 :=
  ⟨rfl, calculate_cpu_usage_zero_delta _ _ rfl⟩

/-!
Per-category CPU shares.  In `print_system_info` the three detail figures
are printed as

  `(double)(cpu->user - cpu->prev_user) / (double)(currTotal - prevTotal) * 100.0`

and similarly for `system` and `idle`, where `currTotal - prevTotal` is the
same eight-field wrapped difference as `total_diff`.  The C code performs the
divisions on doubles with no zero-check; the model below is only used at
inputs whose delta is nonzero (at `total_diff = 0` C produces a non-finite
double, outside the scope of the claims). -/

/-- The `User:` detail percentage printed by `print_system_info`. -/
def userShare (prev curr : CpuSample) : Rat :=
  ((wsub curr.user prev.user : Nat) : Rat) / ((total_diff prev curr : Nat) : Rat) * 100

/-- The `System:` detail percentage printed by `print_system_info`. -/
def systemShare (prev curr : CpuSample) : Rat :=
  ((wsub curr.system prev.system : Nat) : Rat) / ((total_diff prev curr : Nat) : Rat) * 100

/-- The `Idle:` detail percentage printed by `print_system_info`: its
numerator is `cpu->idle - cpu->prev_idle` alone — the `iowait` delta is not
added. -/
def idleShare (prev curr : CpuSample) : Rat :=
  ((wsub curr.idle prev.idle : Nat) : Rat) / ((total_diff prev curr : Nat) : Rat) * 100

/-- Follows the spec's words, for comparison with `idleShare`: the spec
prescribes an idle share computed from the combined `idle + iowait` delta
over the same `deltaTotal`. -/
def idleShareSpec (prev curr : CpuSample) : Rat :=
  ((wsub (cpuIdle curr) (cpuIdle prev) : Nat) : Rat) /
    ((total_diff prev curr : Nat) : Rat) * 100

/-- Follows the spec's words: `deltaTotal` as the sum of the eight per-field
deltas (meaningful for non-decreasing counters). -/
def specDeltaTotal (prev curr : CpuSample) : Nat :=
  (curr.user - prev.user) + (curr.nice - prev.nice) + (curr.system - prev.system) +
  (curr.idle - prev.idle) + (curr.iowait - prev.iowait) + (curr.irq - prev.irq) +
  (curr.softirq - prev.softirq) + (curr.steal - prev.steal)

/-- Unmodded eight-field total of a sample (used to state that the sample's
total fits in 64 bits). -/
def cpuTotalRaw (s : CpuSample) : Nat :=
  s.user + s.nice + s.system + s.idle + s.iowait + s.irq + s.softirq + s.steal

lemma wsub_of_le {a b : Nat} (hba : b ≤ a) (ha : a < W) : wsub a b = a - b := by
  unfold wsub
  rw [Nat.mod_eq_of_lt ha, Nat.mod_eq_of_lt (lt_of_le_of_lt hba ha)]
  have h : a + (W - b) = W + (a - b) := by omega
  rw [h, Nat.add_mod_left]
  exact Nat.mod_eq_of_lt (by omega)

/-- C2 counterexample: with `prev` all zero and
`curr = ⟨user 10, nice 0, system 0, idle 10, iowait 80, irq 0, softirq 0, steal 0⟩`
the printed idle share is `10`, while the spec's combined `idle + iowait`
formula gives `90`; the claim is false as stated. -/
theorem idleShare_ne_spec_at_iowait :
    idleShare ⟨0, 0, 0, 0, 0, 0, 0, 0⟩ ⟨10, 0, 0, 10, 80, 0, 0, 0⟩ ≠
      idleShareSpec ⟨0, 0, 0, 0, 0, 0, 0, 0⟩ ⟨10, 0, 0, 10, 80, 0, 0, 0⟩ := by
  have ht : total_diff ⟨0, 0, 0, 0, 0, 0, 0, 0⟩ ⟨10, 0, 0, 10, 80, 0, 0, 0⟩ = 100 := by
    decide
  have hn : wsub (10 : Nat) 0 = 10 := by decide
  have hi : wsub (cpuIdle ⟨10, 0, 0, 10, 80, 0, 0, 0⟩) (cpuIdle ⟨0, 0, 0, 0, 0, 0, 0, 0⟩)
      = 90 := by decide
  unfold idleShare idleShareSpec
  rw [ht, hi, hn]
  norm_num

/-- C2 amended: all three detail shares printed by `print_system_info` use
the same denominator, the eight-field `total_diff`, which for non-decreasing
counters whose current total fits in 64 bits equals the sum of the eight
field deltas; the user and system numerators are the respective field deltas,
but the idle numerator is the `idle` delta alone, not the combined
`idle + iowait` delta. -/
theorem shares_common_denominator (prev curr : CpuSample)
    (h1 : prev.user ≤ curr.user) (h2 : prev.nice ≤ curr.nice)
    (h3 : prev.system ≤ curr.system) (h4 : prev.idle ≤ curr.idle)
    (h5 : prev.iowait ≤ curr.iowait) (h6 : prev.irq ≤ curr.irq)
    (h7 : prev.softirq ≤ curr.softirq) (h8 : prev.steal ≤ curr.steal)
    (hW : cpuTotalRaw curr < W) :
    total_diff prev curr = specDeltaTotal prev curr ∧
    userShare prev curr =
      ((curr.user - prev.user : Nat) : Rat) / ((specDeltaTotal prev curr : Nat) : Rat) * 100 ∧
    systemShare prev curr =
      ((curr.system - prev.system : Nat) : Rat) / ((specDeltaTotal prev curr : Nat) : Rat) * 100 ∧
    idleShare prev curr =
      ((curr.idle - prev.idle : Nat) : Rat) / ((specDeltaTotal prev curr : Nat) : Rat) * 100 := by
  have hraw : cpuTotalRaw prev ≤ cpuTotalRaw curr := by
    unfold cpuTotalRaw
    omega
  have hWp : cpuTotalRaw prev < W := lt_of_le_of_lt hraw hW
  have hTc : cpuTotal curr = cpuTotalRaw curr := Nat.mod_eq_of_lt hW
  have hTp : cpuTotal prev = cpuTotalRaw prev := Nat.mod_eq_of_lt hWp
  have htd : total_diff prev curr = specDeltaTotal prev curr := by
    unfold total_diff
    rw [hTc, hTp, wsub_of_le hraw hW]
    unfold cpuTotalRaw specDeltaTotal
    omega
  have huser : wsub curr.user prev.user = curr.user - prev.user := by
    refine wsub_of_le h1 (lt_of_le_of_lt ?_ hW)
    unfold cpuTotalRaw
    omega
  have hsys : wsub curr.system prev.system = curr.system - prev.system := by
    refine wsub_of_le h3 (lt_of_le_of_lt ?_ hW)
    unfold cpuTotalRaw
    omega
  have hidle : wsub curr.idle prev.idle = curr.idle - prev.idle := by
    refine wsub_of_le h4 (lt_of_le_of_lt ?_ hW)
    unfold cpuTotalRaw
    omega
  refine ⟨htd, ?_, ?_, ?_⟩
  · unfold userShare
    rw [huser, htd]
  · unfold systemShare
    rw [hsys, htd]
  · unfold idleShare
    rw [hidle, htd]

/-- Witness for C2's amended theorem at a concrete non-decreasing pair. -/
theorem shares_common_denominator_witness :
    (0 : Nat) ≤ 10 ∧ cpuTotalRaw ⟨10, 0, 0, 10, 80, 0, 0, 0⟩ < W ∧
    idleShare ⟨0, 0, 0, 0, 0, 0, 0, 0⟩ ⟨10, 0, 0, 10, 80, 0, 0, 0⟩ =
      ((10 - 0 : Nat) : Rat) /
        ((specDeltaTotal ⟨0, 0, 0, 0, 0, 0, 0, 0⟩ ⟨10, 0, 0, 10, 80, 0, 0, 0⟩ : Nat) : Rat)
        * 100 :=
  ⟨Nat.zero_le _, by decide,
    (shares_common_denominator ⟨0, 0, 0, 0, 0, 0, 0, 0⟩ ⟨10, 0, 0, 10, 80, 0, 0, 0⟩
      (Nat.zero_le _) (Nat.zero_le _) (Nat.zero_le _) (Nat.zero_le _) (Nat.zero_le _)
      (Nat.zero_le _) (Nat.zero_le _) (Nat.zero_le _) (by decide)).2.2.2⟩

/-!
Severity classification.  `print_system_info` picks a progress-bar color per
metric:

  `const char* c = GREEN; if (p > hi) c = RED; else if (p > lo) c = YELLOW;`

with `(lo, hi)` being `(60, 80)` for CPU, `(75, 90)` for memory and
`(80, 90)` for disk.  Green/yellow/red are the Normal/Moderate/High tiers. -/

/-- Severity tier derived from a percentage (the progress-bar color). -/
inductive SeverityTier where
  | Normal
  | Moderate
  | High
deriving DecidableEq, Repr

/-- The color-selection logic of `print_system_info`: strict comparisons
against the high cut, then the low cut. -/
def classify (percent lowCut highCut : Rat) : SeverityTier :=
  if percent > highCut then .High
  else if percent > lowCut then .Moderate
  else .Normal

/-- CPU color choice of `print_system_info` (cuts 60 and 80). -/
def cpuSeverity (p : Rat) : SeverityTier := classify p 60 80

/-- Memory color choice of `print_system_info` (cuts 75 and 90). -/
def memSeverity (p : Rat) : SeverityTier := classify p 75 90

/-- Disk color choice of `print_system_info` (cuts 80 and 90). -/
def diskSeverity (p : Rat) : SeverityTier := classify p 80 90

lemma classify_eq_normal_iff (p low high : Rat) (h : low ≤ high) :
    classify p low high = .Normal ↔ p ≤ low := by
  unfold classify
  split_ifs with h1 h2 <;> simp <;> linarith

lemma classify_eq_moderate_iff (p low high : Rat) :
    classify p low high = .Moderate ↔ low < p ∧ p ≤ high := by
  unfold classify
  split_ifs with h1 h2
  · simp
    intro _
    linarith
  · simp
    constructor <;> linarith
  · simp
    intro _
    linarith

lemma classify_eq_high_iff (p low high : Rat) :
    classify p low high = .High ↔ high < p := by
  unfold classify
  split_ifs with h1 h2 <;> simp <;> linarith

/-- C4 counterexample: the claim places a percentage equal to the low cut in
the Moderate tier, but the code's strict comparison leaves `p = 60` with CPU
cuts `(60, 80)` in the Normal tier. -/
theorem cpuSeverity_at_60_not_moderate :
    cpuSeverity 60 ≠ SeverityTier.Moderate ∧ cpuSeverity 60 = SeverityTier.Normal := by
  have h : cpuSeverity 60 = SeverityTier.Normal := by
    unfold cpuSeverity
    exact (classify_eq_normal_iff 60 60 80 (by norm_num)).2 (le_refl _)
  refine ⟨?_, h⟩
  rw [h]
  simp

/-- C4 amended: for the metric-specific cut pairs — CPU `(60, 80)`, memory
`(75, 90)`, disk `(80, 90)` — the classification is Normal iff `p ≤ lowCut`,
Moderate iff `lowCut < p ≤ highCut`, and High iff `p > highCut`: a percentage
exactly equal to a cut point belongs to the *lower* tier (strict
comparisons), so `p = 60` with cuts `(60, 80)` is Normal and `p = 80` is
Moderate. -/
theorem severity_tiers (p : Rat) :
    (cpuSeverity p = .Normal ↔ p ≤ 60) ∧
    (cpuSeverity p = .Moderate ↔ 60 < p ∧ p ≤ 80) ∧
    (cpuSeverity p = .High ↔ 80 < p) ∧
    (memSeverity p = .Normal ↔ p ≤ 75) ∧
    (memSeverity p = .Moderate ↔ 75 < p ∧ p ≤ 90) ∧
    (memSeverity p = .High ↔ 90 < p) ∧
    (diskSeverity p = .Normal ↔ p ≤ 80) ∧
    (diskSeverity p = .Moderate ↔ 80 < p ∧ p ≤ 90) ∧
    (diskSeverity p = .High ↔ 90 < p) :=
  ⟨classify_eq_normal_iff p 60 80 (by norm_num),
   classify_eq_moderate_iff p 60 80,
   classify_eq_high_iff p 60 80,
   classify_eq_normal_iff p 75 90 (by norm_num),
   classify_eq_moderate_iff p 75 90,
   classify_eq_high_iff p 75 90,
   classify_eq_normal_iff p 80 90 (by norm_num),
   classify_eq_moderate_iff p 80 90,
   classify_eq_high_iff p 80 90⟩

/-!
Memory sampler.  `read_memory_stats` scans `/proc/meminfo` line by line with
`sscanf(line, "%63s %lu kB", key, &value)`, remembering the values of the
five recognized keys; every line that does not parse as a token followed by
a number (and every unrecognized key) is skipped.  We model each line by its
parse outcome. -/

/-- One line of the memory counter source, as seen through
`sscanf("%63s %lu kB", ...)`: either a key token plus a numeric value
(`sscanf` returned 2), or a line that fails to parse. -/
inductive MemLine where
  | kv (key : String) (value : Nat)
  | malformed
deriving DecidableEq, Repr

/-- The five accumulator fields of `read_memory_stats` while scanning
(`stats->total` … `stats->cached`), all `unsigned long` (values mod `W`). -/
structure RawMem where
  total : Nat
  available : Nat
  free : Nat
  buffers : Nat
  cached : Nat
deriving DecidableEq, Repr

/-- The loop body of `read_memory_stats`: a recognized key overwrites the
corresponding field, anything else leaves the state unchanged. -/
def memStep (r : RawMem) : MemLine → RawMem
  | .malformed => r
  | .kv key value =>
    if key = "MemTotal:" then { r with total := value % W }
    else if key = "MemAvailable:" then { r with available := value % W }
    else if key = "MemFree:" then { r with free := value % W }
    else if key = "Buffers:" then { r with buffers := value % W }
    else if key = "Cached:" then { r with cached := value % W }
    else r

/-- The whole scanning loop of `read_memory_stats`, starting from the
zero-initialized fields. -/
def memParse (lines : List MemLine) : RawMem :=
  lines.foldl memStep ⟨0, 0, 0, 0, 0⟩

/-- The snapshot produced by a successful `read_memory_stats` call
(`memory_stats_t`). -/
structure memory_stats where
  total : Nat
  available : Nat
  used : Nat
  free : Nat
  buffers : Nat
  cached : Nat
  usage_percent : Rat
deriving DecidableEq, Repr

/-- The derivation tail of `read_memory_stats`: the `used`/`available`
figures (with the fallback when no positive `MemAvailable` was parsed, all
in wrapping `unsigned long` arithmetic) and the clamped usage percentage. -/
def deriveMem (r : RawMem) : memory_stats :=
  { total := r.total
    available := if r.available > 0 then r.available else (r.free + r.buffers + r.cached) % W
    used := if r.available > 0 then wsub r.total r.available
      else wsub (wsub (wsub r.total r.free) r.buffers) r.cached
    free := r.free
    buffers := r.buffers
    cached := r.cached
    usage_percent :=
      clamp01 (if r.total > 0
        then ((if r.available > 0 then wsub r.total r.available
          else wsub (wsub (wsub r.total r.free) r.buffers) r.cached : Nat) : Rat) /
          ((r.total : Nat) : Rat) * 100
        else 0) }

/-- The successful path of `read_memory_stats` on a readable source whose
lines parse as `lines`: the function always returns 0 in this case. -/
def read_memory_stats (lines : List MemLine) : memory_stats :=
  deriveMem (memParse lines)

/-- Full result of `read_memory_stats` including its error behavior: the
function returns -1 (and leaves the snapshot unwritten) exactly when
`fopen("/proc/meminfo")` fails, modelled by a `none` source; any readable
source — including an empty one — produces a snapshot. -/
def read_memory_stats_checked (source : Option (List MemLine)) : Option memory_stats :=
  match source with
  | none => none
  | some lines => some (read_memory_stats lines)

lemma memStep_lt_W (r : RawMem) (l : MemLine)
    (h : r.total < W ∧ r.available < W ∧ r.free < W ∧ r.buffers < W ∧ r.cached < W) :
    (memStep r l).total < W ∧ (memStep r l).available < W ∧ (memStep r l).free < W ∧
      (memStep r l).buffers < W ∧ (memStep r l).cached < W := by
  have hW : 0 < W := by unfold W; norm_num
  cases l with
  | malformed => exact h
  | kv key value =>
    dsimp only [memStep]
    split_ifs <;> simp_all <;> exact Nat.mod_lt _ hW

lemma memParse_lt_W (lines : List MemLine) :
    (memParse lines).total < W ∧ (memParse lines).available < W ∧
      (memParse lines).free < W ∧ (memParse lines).buffers < W ∧
      (memParse lines).cached < W := by
  have hW : 0 < W := by unfold W; norm_num
  unfold memParse
  have key : ∀ (ls : List MemLine) (r : RawMem),
      r.total < W ∧ r.available < W ∧ r.free < W ∧ r.buffers < W ∧ r.cached < W →
      (ls.foldl memStep r).total < W ∧ (ls.foldl memStep r).available < W ∧
        (ls.foldl memStep r).free < W ∧ (ls.foldl memStep r).buffers < W ∧
        (ls.foldl memStep r).cached < W := by
    intro ls
    induction ls with
    | nil => intro r h; exact h
    | cons l t ih => intro r h; exact ih (memStep r l) (memStep_lt_W r l h)
  exact key lines ⟨0, 0, 0, 0, 0⟩ ⟨hW, hW, hW, hW, hW⟩

/-- C5 counterexample: a readable source reporting `MemTotal: 100` and
`MemAvailable: 200` makes `used = total - available` wrap around 2^64, so the
stored `used` figure exceeds `total` — the snapshot does not satisfy
`used ≤ total`. -/
theorem read_memory_stats_used_overflow :
    (read_memory_stats [.kv "MemTotal:" 100, .kv "MemAvailable:" 200]).total <
      (read_memory_stats [.kv "MemTotal:" 100, .kv "MemAvailable:" 200]).used := by
  decide

/-- C5 amended: after every successful `read_memory_stats` the usage
percentage lies in `[0, 100]` (the code clamps it unconditionally), and
`used ≤ total` holds whenever the path actually taken is fed consistent
counters: on the direct path (positive parsed available) when
`available ≤ total`, and on the fallback path (no positive available) when
`free + buffers + cached ≤ total`; the code performs no clamping of `used`
itself, and an inconsistent source (e.g. available > total) makes the
unsigned subtraction wrap so that `used` exceeds `total`. -/
theorem read_memory_stats_invariants (lines : List MemLine) :
    0 ≤ (read_memory_stats lines).usage_percent ∧
    (read_memory_stats lines).usage_percent ≤ 100 ∧
    (0 < (memParse lines).available →
      (memParse lines).available ≤ (memParse lines).total →
      (read_memory_stats lines).used ≤ (read_memory_stats lines).total) ∧
    ((memParse lines).available = 0 →
      (memParse lines).free + (memParse lines).buffers + (memParse lines).cached ≤
        (memParse lines).total →
      (read_memory_stats lines).used ≤ (read_memory_stats lines).total) := by
  obtain ⟨hT, hA, hF, hB, hC⟩ := memParse_lt_W lines
  refine ⟨clamp01_nonneg _, clamp01_le_100 _, ?_, ?_⟩
  · intro hpos hav
    unfold read_memory_stats deriveMem
    simp only
    rw [if_pos hpos, wsub_of_le hav hT]
    omega
  · intro hzero hfb
    unfold read_memory_stats deriveMem
    simp only
    rw [if_neg (by omega : ¬ (memParse lines).available > 0),
      wsub_of_le (by omega : (memParse lines).free ≤ (memParse lines).total) hT,
      wsub_of_le (by omega : (memParse lines).buffers ≤ (memParse lines).total - (memParse lines).free) (by omega),
      wsub_of_le (by omega : (memParse lines).cached ≤ (memParse lines).total - (memParse lines).free - (memParse lines).buffers) (by omega)]
    omega

/-- Witness for C5's amended theorem: a consistent direct-path source and a
consistent fallback-path source. -/
theorem read_memory_stats_invariants_witness :
    (0 < (memParse [.kv "MemTotal:" 1000, .kv "MemAvailable:" 400]).available ∧
      (memParse [.kv "MemTotal:" 1000, .kv "MemAvailable:" 400]).available ≤
        (memParse [.kv "MemTotal:" 1000, .kv "MemAvailable:" 400]).total ∧
      (read_memory_stats [.kv "MemTotal:" 1000, .kv "MemAvailable:" 400]).used ≤
        (read_memory_stats [.kv "MemTotal:" 1000, .kv "MemAvailable:" 400]).total) ∧
    ((memParse [.kv "MemTotal:" 1000, .kv "MemFree:" 200]).available = 0 ∧
      (memParse [.kv "MemTotal:" 1000, .kv "MemFree:" 200]).free +
        (memParse [.kv "MemTotal:" 1000, .kv "MemFree:" 200]).buffers +
        (memParse [.kv "MemTotal:" 1000, .kv "MemFree:" 200]).cached ≤
        (memParse [.kv "MemTotal:" 1000, .kv "MemFree:" 200]).total ∧
      (read_memory_stats [.kv "MemTotal:" 1000, .kv "MemFree:" 200]).used ≤
        (read_memory_stats [.kv "MemTotal:" 1000, .kv "MemFree:" 200]).total) :=
  ⟨⟨by decide, by decide,
    (read_memory_stats_invariants [.kv "MemTotal:" 1000, .kv "MemAvailable:" 400]).2.2.1
      (by decide) (by decide)⟩,
   ⟨by decide, by decide,
    (read_memory_stats_invariants [.kv "MemTotal:" 1000, .kv "MemFree:" 200]).2.2.2
      (by decide) (by decide)⟩⟩

/-- C6 counterexample: an empty but readable source does not produce an
error — `read_memory_stats` scans zero lines, keeps every field 0, and
returns success (the claim requires a `ParseFailure` on an empty source). -/
theorem read_memory_stats_empty_succeeds :
    read_memory_stats_checked (some []) ≠ none ∧
    read_memory_stats_checked (some []) =
      some (read_memory_stats []) := by
  constructor
  · simp [read_memory_stats_checked]
  · rfl

/-- C6 amended: `read_memory_stats` fails if and only if the memory counter
source cannot be opened; in every other case — including an empty source,
sources with missing recognized keys, or malformed individual lines — it
succeeds, with unparsed keys left at their 0 initialization. -/
theorem read_memory_stats_error_iff (source : Option (List MemLine)) :
    read_memory_stats_checked source = none ↔ source = none := by
  cases source <;> simp [read_memory_stats_checked]

/-- C7 counterexample: when the source explicitly reports an available
figure of `0` (`MemAvailable: 0`), the code's `available > 0` test routes it
to the fallback formula, so `used` is not `total - available` for the
reported figures: with total 1000, available 0, free 200, buffers 50,
cached 250 the code yields `used = 500`, not `1000`. -/
theorem read_memory_stats_available_zero_fallback :
    (read_memory_stats [.kv "MemTotal:" 1000, .kv "MemAvailable:" 0, .kv "MemFree:" 200,
        .kv "Buffers:" 50, .kv "Cached:" 250]).used ≠
      wsub (memParse [.kv "MemTotal:" 1000, .kv "MemAvailable:" 0, .kv "MemFree:" 200,
        .kv "Buffers:" 50, .kv "Cached:" 250]).total
        (memParse [.kv "MemTotal:" 1000, .kv "MemAvailable:" 0, .kv "MemFree:" 200,
        .kv "Buffers:" 50, .kv "Cached:" 250]).available := by
  decide

/-- C7 amended: `read_memory_stats` derives `used = total - available` when
a *positive* available figure was parsed (the code tests `available > 0`, so
a reported `MemAvailable: 0` also takes the fallback), and otherwise uses
`used = total - free - buffers - cached`, `available = free + buffers +
cached`; in particular, for total 1000, free 200, buffers 50, cached 250 and
no available key it yields used 500, available 500 and usage 50%. -/
theorem read_memory_stats_used_formula (lines : List MemLine) :
    (0 < (memParse lines).available →
      (read_memory_stats lines).used =
        wsub (memParse lines).total (memParse lines).available ∧
      (read_memory_stats lines).available = (memParse lines).available) ∧
    ((memParse lines).available = 0 →
      (read_memory_stats lines).used =
        wsub (wsub (wsub (memParse lines).total (memParse lines).free)
          (memParse lines).buffers) (memParse lines).cached ∧
      (read_memory_stats lines).available =
        ((memParse lines).free + (memParse lines).buffers + (memParse lines).cached) % W) ∧
    (read_memory_stats [.kv "MemTotal:" 1000, .kv "MemFree:" 200, .kv "Buffers:" 50,
        .kv "Cached:" 250]).used = 500 ∧
    (read_memory_stats [.kv "MemTotal:" 1000, .kv "MemFree:" 200, .kv "Buffers:" 50,
        .kv "Cached:" 250]).available = 500 ∧
    (read_memory_stats [.kv "MemTotal:" 1000, .kv "MemFree:" 200, .kv "Buffers:" 50,
        .kv "Cached:" 250]).usage_percent = 50 := by
  refine ⟨?_, ?_, by decide, by decide, ?_⟩
  · intro h
    unfold read_memory_stats deriveMem
    simp only
    rw [if_pos h, if_pos h]
    exact ⟨rfl, rfl⟩
  · intro h
    unfold read_memory_stats deriveMem
    simp only
    rw [h]
    norm_num
  · have hu : (read_memory_stats [.kv "MemTotal:" 1000, .kv "MemFree:" 200, .kv "Buffers:" 50,
        .kv "Cached:" 250]).usage_percent = clamp01 (((500 : Nat) : Rat) / ((1000 : Nat) : Rat) * 100) := by
      unfold read_memory_stats deriveMem
      simp only
      have h1 : (memParse [.kv "MemTotal:" 1000, .kv "MemFree:" 200, .kv "Buffers:" 50,
          .kv "Cached:" 250]).available > 0 ↔ False := by decide
      have h2 : (memParse [.kv "MemTotal:" 1000, .kv "MemFree:" 200, .kv "Buffers:" 50,
          .kv "Cached:" 250]).total > 0 ↔ True := by decide
      rw [if_pos (by decide : (memParse [.kv "MemTotal:" 1000, .kv "MemFree:" 200,
        .kv "Buffers:" 50, .kv "Cached:" 250]).total > 0),
        if_neg (by decide : ¬ (memParse [.kv "MemTotal:" 1000, .kv "MemFree:" 200,
        .kv "Buffers:" 50, .kv "Cached:" 250]).available > 0),
        (by decide : wsub (wsub (wsub (memParse [.kv "MemTotal:" 1000, .kv "MemFree:" 200,
          .kv "Buffers:" 50, .kv "Cached:" 250]).total
          (memParse [.kv "MemTotal:" 1000, .kv "MemFree:" 200, .kv "Buffers:" 50,
          .kv "Cached:" 250]).free)
          (memParse [.kv "MemTotal:" 1000, .kv "MemFree:" 200, .kv "Buffers:" 50,
          .kv "Cached:" 250]).buffers)
          (memParse [.kv "MemTotal:" 1000, .kv "MemFree:" 200, .kv "Buffers:" 50,
          .kv "Cached:" 250]).cached = 500),
        (by decide : (memParse [.kv "MemTotal:" 1000, .kv "MemFree:" 200, .kv "Buffers:" 50,
          .kv "Cached:" 250]).total = 1000)]
    rw [hu]
    norm_num [clamp01, clampLow]

/-- Witness for C7's amended theorem: a source with a positive available
figure takes the direct `total - available` path. -/
theorem read_memory_stats_used_formula_witness :
    0 < (memParse [.kv "MemTotal:" 1000, .kv "MemAvailable:" 400]).available ∧
    (read_memory_stats [.kv "MemTotal:" 1000, .kv "MemAvailable:" 400]).used =
      wsub (memParse [.kv "MemTotal:" 1000, .kv "MemAvailable:" 400]).total
        (memParse [.kv "MemTotal:" 1000, .kv "MemAvailable:" 400]).available :=
  ⟨by decide,
    ((read_memory_stats_used_formula [.kv "MemTotal:" 1000, .kv "MemAvailable:" 400]).1
      (by decide)).1⟩

/-!
Unit converter.  `format_bytes` keeps a `double size = (double)bytes` and
runs `while (size >= 1024.0 && unit_index < 4) { size /= 1024.0; unit_index++; }`.
Division of a binary double by 1024 is exact, and every comparison threshold
below the TB stage involves values under `2^53`, so the rational model of the
loop agrees with the IEEE evaluation for every 64-bit input.  `%.1f`
formatting rounds to one decimal with ties to even, modelled by
`roundTenths`. -/

/-- The scaling loop of `format_bytes`, returning the final `size` and
`unit_index`. -/
def fb_loop (size : Rat) (idx : Nat) : Rat × Nat :=
  if 1024 ≤ size ∧ idx < 4 then fb_loop (size / 1024) (idx + 1) else (size, idx)
termination_by 4 - idx
decreasing_by omega

/-- The unit names of `format_bytes`. -/
def units : List String := ["B", "KB", "MB", "GB", "TB"]

/-- Rounding of a scaled value to tenths as `snprintf("%.1f", ...)` performs
it (nearest, ties to even). -/
def roundTenths (x : Rat) : Int :=
  if 10 * x - (⌊10 * x⌋ : Rat) < 1 / 2 then ⌊10 * x⌋
  else if (1 / 2 : Rat) < 10 * x - (⌊10 * x⌋ : Rat) then ⌊10 * x⌋ + 1
  else if ⌊10 * x⌋ % 2 = 0 then ⌊10 * x⌋ else ⌊10 * x⌋ + 1

/-- Rendering of a scaled (non-negative) value with one decimal place, as in
`snprintf(buffer, n, "%.1f %s", size, ...)`. -/
def fmt1 (x : Rat) : String :=
  toString (roundTenths x / 10) ++ "." ++ toString (roundTenths x % 10)

/-- The string built by `format_bytes`: byte-unit values are printed as the
exact integer (`"%llu %s"`), scaled values with one decimal (`"%.1f %s"`). -/
def format_bytes (bytes : Nat) : String :=
  if (fb_loop (bytes : Rat) 0).2 = 0 then toString bytes ++ " " ++ units.getD 0 ""
  else fmt1 (fb_loop (bytes : Rat) 0).1 ++ " " ++ units.getD (fb_loop (bytes : Rat) 0).2 ""

lemma fb_loop_idx_le (k : Nat) :
    ∀ (size : Rat) (idx : Nat), 4 - idx ≤ k → idx ≤ 4 → (fb_loop size idx).2 ≤ 4 := by
  induction k with
  | zero =>
    intro size idx hk hle
    have h4 : idx = 4 := by omega
    subst h4
    rw [fb_loop]
    simp
  | succ k ih =>
    intro size idx hk hle
    rw [fb_loop]
    split_ifs with h
    · exact ih _ (idx + 1) (by omega) (by omega)
    · simpa using hle

lemma fb_loop_small {n : Nat} (hn : n < 1024) : fb_loop (n : Rat) 0 = ((n : Rat), 0) := by
  rw [fb_loop, if_neg]
  rintro ⟨h1, -⟩
  have : (n : Rat) < 1024 := by exact_mod_cast hn
  linarith

lemma fb_loop_tb {n : Nat} (h : 1024 ^ 4 ≤ n) :
    fb_loop (n : Rat) 0 = ((n : Rat) / 1024 / 1024 / 1024 / 1024, 4) := by
  have hr : ((1024 : Rat)) ^ 4 ≤ (n : Rat) := by exact_mod_cast h
  have hr4 : (1099511627776 : Rat) ≤ (n : Rat) := by
    have : ((1024 : Rat)) ^ 4 = 1099511627776 := by norm_num
    linarith
  have c0 : (1024 : Rat) ≤ (n : Rat) := by linarith
  have c1 : (1024 : Rat) ≤ (n : Rat) / 1024 := by
    rw [le_div_iff₀ (by norm_num : (0 : Rat) < 1024)]
    linarith
  have c2 : (1024 : Rat) ≤ (n : Rat) / 1024 / 1024 := by
    rw [div_div, le_div_iff₀ (by norm_num : (0 : Rat) < 1024 * 1024)]
    linarith
  have c3 : (1024 : Rat) ≤ (n : Rat) / 1024 / 1024 / 1024 := by
    rw [div_div, div_div, le_div_iff₀ (by norm_num : (0 : Rat) < 1024 * (1024 * 1024))]
    linarith
  rw [fb_loop, if_pos ⟨c0, by norm_num⟩, fb_loop, if_pos ⟨c1, by norm_num⟩,
    fb_loop, if_pos ⟨c2, by norm_num⟩, fb_loop, if_pos ⟨c3, by norm_num⟩,
    fb_loop, if_neg (by rintro ⟨-, h4⟩; exact absurd h4 (by norm_num))]

lemma roundTenths_int (m : Int) : roundTenths ((m : Rat) / 10) = m := by
  unfold roundTenths
  rw [show (10 : Rat) * ((m : Rat) / 10) = (m : Rat) by ring, Int.floor_intCast]
  norm_num

/-- C9: `format_bytes` divides by 1024 at most 4 times; values of at least
`1024^4` reach the TB unit and values of at least `1024^5` stay there with a
scaled value still ≥ 1024 (never scaling past TB); byte-unit values are
printed as exact integers with unit `B`; and `0 ↦ "0 B"`,
`1536 ↦ "1.5 KB"`, `1073741824 ↦ "1.0 GB"`. -/
theorem format_bytes_spec :
    format_bytes 0 = "0 B" ∧ format_bytes 1536 = "1.5 KB" ∧
    format_bytes 1073741824 = "1.0 GB" ∧
    (∀ n : Nat, (fb_loop (n : Rat) 0).2 ≤ 4) ∧
    (∀ n : Nat, n < 1024 → format_bytes n = toString n ++ " B") ∧
    (∀ n : Nat, 1024 ^ 4 ≤ n → (fb_loop (n : Rat) 0).2 = 4) ∧
    (∀ n : Nat, 1024 ^ 5 ≤ n → 1024 ≤ (fb_loop (n : Rat) 0).1) := by
  have hsmall : ∀ n : Nat, n < 1024 → format_bytes n = toString n ++ " B" := by
    intro n hn
    unfold format_bytes
    rw [fb_loop_small hn]
    simp only [units, List.getD]
    rw [String.append_assoc]
    rfl
  refine ⟨?_, ?_, ?_, ?_, hsmall, ?_, ?_⟩
  · exact hsmall 0 (by norm_num)
  · have hloop : fb_loop ((1536 : Nat) : Rat) 0 = ((3 / 2 : Rat), 1) := by
      rw [fb_loop]
      norm_num
      rw [fb_loop]
      norm_num
    have hround : roundTenths ((3 / 2 : Rat)) = 15 := by
      have h := roundTenths_int 15
      have harg : (((15 : Int) : Rat)) / 10 = 3 / 2 := by norm_num
      rw [harg] at h
      exact h
    unfold format_bytes
    rw [hloop]
    norm_num [fmt1, hround, units]
    decide
  · have hloop : fb_loop ((1073741824 : Nat) : Rat) 0 = ((1 : Rat), 3) := by
      rw [fb_loop]
      norm_num
      rw [fb_loop]
      norm_num
      rw [fb_loop]
      norm_num
      rw [fb_loop]
      norm_num
    have hround : roundTenths ((1 : Rat)) = 10 := by
      have h := roundTenths_int 10
      have harg : (((10 : Int) : Rat)) / 10 = 1 := by norm_num
      rw [harg] at h
      exact h
    unfold format_bytes
    rw [hloop]
    norm_num [fmt1, hround, units]
    decide
  · intro n
    exact fb_loop_idx_le 4 _ 0 (by norm_num) (by norm_num)
  · intro n hn
    rw [fb_loop_tb hn]
  · intro n hn
    have h4 : (1024 : Nat) ^ 4 ≤ n := le_trans (by norm_num) hn
    rw [fb_loop_tb h4]
    have hr : ((1024 : Rat)) ^ 5 ≤ (n : Rat) := by exact_mod_cast hn
    have hr5 : (1125899906842624 : Rat) ≤ (n : Rat) := by
      have : ((1024 : Rat)) ^ 5 = 1125899906842624 := by norm_num
      linarith
    simp only
    rw [div_div, div_div, div_div,
      le_div_iff₀ (by norm_num : (0 : Rat) < 1024 * (1024 * (1024 * 1024)))]
    linarith

/-- Witness for C9's theorem at concrete byte-unit and beyond-TB inputs. -/
theorem format_bytes_spec_witness :
    ((500 : Nat) < 1024 ∧ format_bytes 500 = toString (500 : Nat) ++ " B") ∧
    ((1024 : Nat) ^ 4 ≤ 1024 ^ 5 ∧ (fb_loop (((1024 : Nat) ^ 5 : Nat) : Rat) 0).2 = 4) ∧
    ((1024 : Nat) ^ 5 ≤ 1024 ^ 5 ∧ 1024 ≤ (fb_loop (((1024 : Nat) ^ 5 : Nat) : Rat) 0).1) :=
  ⟨⟨by norm_num, format_bytes_spec.2.2.2.2.1 500 (by norm_num)⟩,
   ⟨by norm_num, format_bytes_spec.2.2.2.2.2.1 (1024 ^ 5) (by norm_num)⟩,
   ⟨le_refl _, format_bytes_spec.2.2.2.2.2.2 (1024 ^ 5) (le_refl _)⟩⟩

/-!
CPU read and the main sampling tick. -/

/-- What the CPU counter source hands to one `read_cpu_stats` call: either
the open/first-line read fails, or a line whose `sscanf` with
`"cpu %llu %llu %llu %llu %llu %llu %llu %llu"` matches the listed values in
field order (the list length is the `sscanf` return value; at most eight
values are consumed). -/
inductive CpuSrc where
  | unreadable
  | line (vals : List Nat)
deriving DecidableEq, Repr

/-- Effect of `sscanf` on the current-field block of `cpu_stats_t`: the
first `vals.length` fields (in order user, nice, system, idle, iowait, irq,
softirq, steal) receive the parsed values, the rest keep their old
contents. -/
def applyVals (c : CpuSample) (vals : List Nat) : CpuSample :=
  { user := vals.getD 0 c.user
    nice := vals.getD 1 c.nice
    system := vals.getD 2 c.system
    idle := vals.getD 3 c.idle
    iowait := vals.getD 4 c.iowait
    irq := vals.getD 5 c.irq
    softirq := vals.getD 6 c.softirq
    steal := vals.getD 7 c.steal }

/-- One `read_cpu_stats` call: on an unreadable source it returns -1 with
the state untouched; on a read line it first copies every current field into
the `prev_*` block, then lets `sscanf` overwrite the current block, and
returns -1 (parse error) when fewer than four fields matched, 0 otherwise. -/
def read_cpu_stats (src : CpuSrc) (s : cpu_stats_t) : Int × cpu_stats_t :=
  match src with
  | .unreadable => (-1, s)
  | .line vals =>
    if vals.length < 4 then (-1, ⟨applyVals s.curr vals, s.curr⟩)
    else (0, ⟨applyVals s.curr vals, s.curr⟩)

/-- C10: whenever `read_cpu_stats` gets a line from the counter source, the
`prev_*` fields are overwritten with the pre-call current fields before
parsing; so when parsing then fails (fewer than four fields, return -1) the
retained history has still been mutated — the state differs from the
pre-call state whenever its previous and current samples differed, and the
next delta is taken against this clobbered history. -/
theorem read_cpu_stats_clobbers_prev (s : cpu_stats_t) (vals : List Nat)
    (hfail : vals.length < 4) :
    (read_cpu_stats (.line vals) s).1 = -1 ∧
    (read_cpu_stats (.line vals) s).2.prev = s.curr ∧
    (s.prev ≠ s.curr → (read_cpu_stats (.line vals) s).2 ≠ s) := by
  dsimp only [read_cpu_stats]
  rw [if_pos hfail]
  refine ⟨rfl, rfl, ?_⟩
  intro hne heq
  exact hne (congrArg cpu_stats_t.prev heq).symm

/-- Witness for C10: a two-field line (parse failure) against a state whose
history differs from its current sample. -/
theorem read_cpu_stats_clobbers_prev_witness :
    ([9, 9] : List Nat).length < 4 ∧
    (read_cpu_stats (.line [9, 9])
      ⟨⟨1, 2, 3, 4, 5, 6, 7, 8⟩, ⟨0, 0, 0, 0, 0, 0, 0, 0⟩⟩).1 = -1 ∧
    (read_cpu_stats (.line [9, 9])
      ⟨⟨1, 2, 3, 4, 5, 6, 7, 8⟩, ⟨0, 0, 0, 0, 0, 0, 0, 0⟩⟩).2.prev = ⟨1, 2, 3, 4, 5, 6, 7, 8⟩ ∧
    (read_cpu_stats (.line [9, 9])
      ⟨⟨1, 2, 3, 4, 5, 6, 7, 8⟩, ⟨0, 0, 0, 0, 0, 0, 0, 0⟩⟩).2 ≠
      ⟨⟨1, 2, 3, 4, 5, 6, 7, 8⟩, ⟨0, 0, 0, 0, 0, 0, 0, 0⟩⟩ := by
  have h := read_cpu_stats_clobbers_prev
    ⟨⟨1, 2, 3, 4, 5, 6, 7, 8⟩, ⟨0, 0, 0, 0, 0, 0, 0, 0⟩⟩ [9, 9] (by decide)
  exact ⟨by decide, h.1, h.2.1, h.2.2 (by decide)⟩

/-- The metric-enable flags of `config_t` (the remaining fields — refresh
rate, disk path, continuous mode — do not affect which samplers run within
one tick). -/
structure config_t where
  show_cpu : Bool
  show_memory : Bool
  show_disk : Bool
deriving DecidableEq, Repr

/-- Observable outcome of one iteration of the `do` loop in `main`: which
samplers were invoked, and whether the tick reached `print_system_info`. -/
structure tick_trace where
  cpu_read : Bool
  mem_read : Bool
  disk_read : Bool
  rendered : Bool
deriving DecidableEq, Repr

/-- One iteration of `main`'s sampling loop, given which enabled samplers
would succeed this tick.  Each `if (config.show_X && read_X(...) != 0) {
fprintf(...); continue; }` short-circuits: a disabled metric is not read, and
a failing read abandons the whole iteration before the remaining reads and
before `print_system_info`. -/
def main_tick (cfg : config_t) (cpu_ok mem_ok disk_ok : Bool) : tick_trace :=
  if cfg.show_cpu && !cpu_ok then ⟨true, false, false, false⟩
  else if cfg.show_memory && !mem_ok then ⟨cfg.show_cpu, true, false, false⟩
  else if cfg.show_disk && !disk_ok then ⟨cfg.show_cpu, cfg.show_memory, true, false⟩
  else ⟨cfg.show_cpu, cfg.show_memory, cfg.show_disk, true⟩

/-- C3 counterexample: with all three metrics enabled and the CPU read
failing, the `continue` in `main` skips the memory and disk reads and the
rendering of that tick — per-metric errors are not independent. -/
theorem main_tick_cpu_failure_blocks_others :
    (main_tick ⟨true, true, true⟩ false true true).mem_read = false ∧
    (main_tick ⟨true, true, true⟩ false true true).disk_read = false ∧
    (main_tick ⟨true, true, true⟩ false true true).rendered = false := by
  decide

/-- C3 amended: sampler failures abort the tick in the fixed order CPU →
memory → disk: a failing enabled sampler leaves every later sampler unread
and nothing rendered (so an earlier failure blocks the later metrics, while
a later failure leaves the earlier reads already done); only when every
enabled sampler succeeds is the tick rendered. -/
theorem main_tick_failure_order (cfg : config_t) (cpu_ok mem_ok disk_ok : Bool) :
    (cfg.show_cpu = true → cpu_ok = false →
      main_tick cfg cpu_ok mem_ok disk_ok = ⟨true, false, false, false⟩) ∧
    ((cfg.show_cpu = false ∨ cpu_ok = true) → cfg.show_memory = true → mem_ok = false →
      main_tick cfg cpu_ok mem_ok disk_ok = ⟨cfg.show_cpu, true, false, false⟩) ∧
    ((cfg.show_cpu = false ∨ cpu_ok = true) → (cfg.show_memory = false ∨ mem_ok = true) →
      cfg.show_disk = true → disk_ok = false →
      main_tick cfg cpu_ok mem_ok disk_ok = ⟨cfg.show_cpu, cfg.show_memory, true, false⟩) ∧
    ((cfg.show_cpu = false ∨ cpu_ok = true) → (cfg.show_memory = false ∨ mem_ok = true) →
      (cfg.show_disk = false ∨ disk_ok = true) →
      main_tick cfg cpu_ok mem_ok disk_ok =
        ⟨cfg.show_cpu, cfg.show_memory, cfg.show_disk, true⟩) := by
  obtain ⟨sc, sm, sd⟩ := cfg
  cases sc <;> cases sm <;> cases sd <;> cases cpu_ok <;> cases mem_ok <;> cases disk_ok <;>
    simp [main_tick]

/-- Witness for C3's amended theorem: an all-enabled tick with a CPU
failure, and an all-enabled tick with every sampler succeeding. -/
theorem main_tick_failure_order_witness :
    main_tick ⟨true, true, true⟩ false true true = ⟨true, false, false, false⟩ ∧
    main_tick ⟨true, true, true⟩ true true true = ⟨true, true, true, true⟩ :=
  ⟨(main_tick_failure_order ⟨true, true, true⟩ false true true).1 rfl rfl,
   (main_tick_failure_order ⟨true, true, true⟩ true true true).2.2.2
     (Or.inr rfl) (Or.inr rfl) (Or.inr rfl)⟩

end SysMon
